import Mathlib

/-!
Verification of the snowball Model Compilation & Artifact Packaging Pipeline
(`src/snowball/run_dbt.py`, `src/snowball/snowball.py`).

Query texts and file paths are modelled as `List Char`; path splitting is
modelled by passing the already-split segment list (Python's
`rel_path.split(os.sep)`).  All characters of interest are ASCII, so
Python's `\w` word class, `str.strip` whitespace set, `str.upper` and
string ordering coincide with the ASCII operations used below.
-/

set_option maxRecDepth 100000

namespace Snowball

/-- ASCII whitespace stripped by Python `str.strip()`. -/
def pyIsSpace (c : Char) : Bool :=
  c = ' ' || c = '\t' || c = '\n' || c = '\x0d' || c = '\x0b' || c = '\x0c'

/-- Python `str.strip()`: drop leading and trailing whitespace. -/
def pyStrip (l : List Char) : List Char :=
  ((l.dropWhile pyIsSpace).reverse.dropWhile pyIsSpace).reverse

/-- A regex word character (`\w` over ASCII): letter, digit or underscore. -/
def isWordChar (c : Char) : Bool :=
  c.isAlphanum || c = '_'

/-- Whether the regex `\bFROM\b` (case-insensitive) matches `s` at offset `i`:
the four characters starting at `i` spell FROM up to case, and both
neighbours (when present) are non-word characters. -/
def fromAt (s : List Char) (i : Nat) : Bool :=
  ((s.drop i).take 4).map Char.toLower == ['f', 'r', 'o', 'm'] &&
  (match i with
   | 0 => true
   | j + 1 => !(isWordChar (s.getD j ' '))) &&
  !(isWordChar (s.getD (i + 4) ' '))

/-- Start offsets of every match of `re.finditer(r"\bFROM\b", s, re.IGNORECASE)`,
in increasing order (`run_dbt.py:531`, `snowball.py:637`). -/
def fromPositions (s : List Char) : List Nat :=
  (List.range s.length).filter (fun i => fromAt s i)

/-- Suffix after the first underscore: Python
`folder_raw.split("_", 1)[1] if "_" in folder_raw else folder_raw`. -/
def afterFirstUnd (l : List Char) : List Char :=
  if '_' ∈ l then (l.dropWhile (fun c => c ≠ '_')).tail else l

/-- Segment after the last occurrence of `c`: Python `s.split(c)[-1]`. -/
def lastSplitSeg (c : Char) (l : List Char) : List Char :=
  (l.reverse.takeWhile (fun x => x ≠ c)).reverse

/-- Python `os.path.splitext(name)[0]` for a bare file name: drop the suffix
starting at the last dot, unless every character before that dot is a dot. -/
def splitextBase (l : List Char) : List Char :=
  if '.' ∈ l then
    let stem := ((l.reverse.dropWhile (fun c => c ≠ '.')).tail).reverse
    if stem.all (fun c => c = '.') then l else stem
  else l

/-- Domain qualifier used by the procedure rewriter: the folder segment with a
first-underscore-delimited numbering prefix stripped (`run_dbt.py:515`,
`snowball.py:621`). -/
def procDomain (folderRaw : String) : String :=
  ⟨afterFirstUnd folderRaw.data⟩

/-- Domain lookup of `transform_compiled_sql` (`run_dbt.py:511-519`): find the
first `models` segment of the relative path; the segment after it, with the
numbering prefix stripped, is the domain.  `none` means the function returns
early (file skipped). -/
def domainOf (parts : List String) : Option String :=
  if "models" ∈ parts then
    let i := parts.indexOf "models"
    if i + 1 < parts.length then
      some (procDomain (parts.getD (i + 1) ""))
    else none
  else none

/-- Model name `os.path.splitext(parts[-1])[0]` (`run_dbt.py:521`). -/
def modelNameOf (parts : List String) : String :=
  ⟨splitextBase (parts.getLastD "").data⟩

/-- The injected clause `INTO <domain>.<model>\n` (`run_dbt.py:535`). -/
def intoClause (d m : String) : List Char :=
  ("INTO " ++ d ++ "." ++ m ++ "\n").data

/-- The procedure header prepended to the body (`run_dbt.py:524-528`). -/
def procHeader (d m : String) : List Char :=
  ("CREATE OR ALTER PROCEDURE " ++ d ++ ".sp_" ++ m ++
   "\nAS\nBEGIN\n    SET NOCOUNT ON;\n\n    BEGIN\n        DROP TABLE IF EXISTS " ++
   d ++ "." ++ m ++ "; \n    END;\n\n").data

/-- The block terminator appended after the stripped body (`run_dbt.py:538`). -/
def endFooter : List Char :=
  "\nEND;".data

/-- Step 2 of the rewriter (`run_dbt.py:530-535`): if the text has at least one
case-insensitive whole-word FROM, insert `INTO <d>.<m>\n` immediately before
the start offset of the last match; otherwise leave the text unchanged. -/
def injectInto (d m : String) (sql : List Char) : List Char :=
  match (fromPositions sql).getLast? with
  | none => sql
  | some p => sql.take p ++ intoClause d m ++ sql.drop p

/-- The pure core of `transform_compiled_sql` (`run_dbt.py:500-545`,
`snowball.py:606-651`): `parts` is the `os.sep`-split relative path of the
file, `sql` the file's text.  `none` models the early returns (no `models`
anchor, or `models` is the final segment); `some out` is the text written
back to the file. -/
def transform_compiled_sql (parts : List String) (sql : List Char) : Option (List Char) :=
  match domainOf parts with
  | none => none
  | some d =>
    let m := modelNameOf parts
    some (procHeader d m ++ pyStrip (injectInto d m sql) ++ endFooter)

/-- One notebook cell: markdown or executable code (`nbformat` cells). -/
inductive Cell where
  | markdown (text : String)
  | code (text : String)
deriving DecidableEq

/-- Lexicographic code-point comparison of character lists: the strict part
of Python's string ordering. -/
def charListLt : List Char → List Char → Bool
  | [], [] => false
  | [], _ :: _ => true
  | _ :: _, [] => false
  | a :: as, b :: bs => if a < b then true else if b < a then false else charListLt as bs

/-- Python `sorted`: insertion sort with a boolean ordering test. -/
def insertLe {α : Type} (le : α → α → Bool) (a : α) : List α → List α
  | [] => [a]
  | b :: bs => if le a b then a :: b :: bs else b :: insertLe le a bs

/-- Python `sorted` over a list (`sorted(files)` at `run_dbt.py:443`). -/
def sortLe {α : Type} (le : α → α → Bool) : List α → List α
  | [] => []
  | a :: as => insertLe le a (sortLe le as)

/-- Code-point string ordering used by Python `sorted` on file names. -/
def strLe (a b : String) : Bool :=
  charListLt a.data b.data || a.data == b.data

/-- Schema qualifier used by the notebook cells: `folder.split('_')[-1]`
(`run_dbt.py:435,453,454`). -/
def schemaName (folder : String) : String :=
  ⟨lastSplitSeg '_' folder.data⟩

/-- Heading markdown cell text (`run_dbt.py:430-434`); the layer name is
`folder.upper().split('_')[-1]` (ASCII uppercasing). -/
def notebookHeading (folder : String) : String :=
  let fn : String := ⟨lastSplitSeg '_' (folder.data.map Char.toUpper)⟩
  "## SNOWBALL Spark SQL version\n" ++
  "#### **Notebook to create " ++ fn ++ " layer**\n" ++
  "##### **Creating " ++ fn ++ " schema to create required " ++ fn ++ " tables**\n"

/-- The title cell and executable cell emitted for one model file
(`run_dbt.py:450-456`). -/
def modelCells (folder fileName content : String) : List Cell :=
  let m : String := ⟨splitextBase fileName.data⟩
  [Cell.markdown ("##### **" ++ m ++ "**"),
   Cell.code ("%%sql\nDROP TABLE IF EXISTS " ++ schemaName folder ++ "." ++ m ++
     ";\nCREATE TABLE " ++ schemaName folder ++ "." ++ m ++ " AS\n" ++ content)]

/-- Cells of the notebook assembled for one domain folder
(`run_dbt.py:427-456`, `snowball.py:540-569`): a heading markdown cell, a
schema-creation code cell, then, per `.sql` file in sorted file-name order, a
title cell and a code cell. -/
def generate_notebook (folder : String) (files : List (String × String)) : List Cell :=
  Cell.markdown (notebookHeading folder) ::
  Cell.code ("%%sql\nCREATE SCHEMA IF NOT EXISTS " ++ schemaName folder ++ ";") ::
  ((sortLe (fun a b => strLe a.1 b.1) files).filter
      (fun f => ".sql".data.isSuffixOf f.1.data)).flatMap (fun f => modelCells folder f.1 f.2)

/-- `generate_notebooks` (`run_dbt.py:406-464`, `snowball.py:519-577`) over an
abstract compiled root: each discovered domain folder (name, model files) that
is not literally `models` yields one document `<folder>_nb.ipynb`. -/
def generate_notebooks (folders : List (String × List (String × String))) :
    List (String × List Cell) :=
  (folders.filter (fun f => f.1 ≠ "models")).map
    (fun f => (f.1 ++ "_nb.ipynb", generate_notebook f.1 f.2))

/-- The pipeline stages of one run, in the fixed order of the spec. -/
inductive Stage where
  | deps | preSetup | run | compile | lint | transform | archive
deriving DecidableEq, Fintype

/-- Position of a stage in the fixed order. -/
def stageIdx : Stage → Nat
  | .deps => 0
  | .preSetup => 1
  | .run => 2
  | .compile => 3
  | .lint => 4
  | .transform => 5
  | .archive => 6

/-- Stage sequence invoked by `main` in the notebook mode
(`run_dbt.py:731-773`, `snowball.py:904-941`), given each stage's success
outcome `r`.  `deps`, `preSetup`, `run` and `compile` each return early on
failure; the lint stage (`apply_sqlfluff_to_compiled`) only prints a warning
on failure; the return value of `generate_notebooks` is discarded, and the
archive (`zip_directory`) runs unconditionally afterwards. -/
def pipelineNotebooks (r : Stage → Bool) : List Stage :=
  Stage.deps ::
    (if r Stage.deps then
      Stage.preSetup ::
        (if r Stage.preSetup then
          Stage.run ::
            (if r Stage.run then
              Stage.compile ::
                (if r Stage.compile then
                  [Stage.lint, Stage.transform, Stage.archive]
                 else [])
             else [])
         else [])
     else [])

/-- The connection gate of `snowball.py:801-810` (`checking`): each probe is
one `connection_check` outcome; `platformMatches` is the (loop-invariant)
comparison `type == platform_dict.get(user_choice)`.  The result is whether
the recursion terminates (the gate lets the pipeline proceed) within the given
finite prefix of probe outcomes; on failure or mismatch it re-probes. -/
def checking_snowball (platformMatches : Bool) : List Bool → Bool
  | [] => false
  | p :: rest =>
    if !p || !platformMatches then checking_snowball platformMatches rest else true

/-- The connection gate of `run_dbt.py:656-662` (`checking`): on a failed
probe the operator is prompted; only the literal input `"1"` triggers a
re-probe, any other input falls off the end of the function.  `some b` means
the gate returned (pipeline proceeds) with `b` the success of the probe in
effect; `none` means the recursion is still running after the given probes. -/
def checking_run_dbt : List Bool → List String → Option Bool
  | [], _ => none
  | p :: ps, inputs =>
    if p then some true
    else
      match inputs with
      | [] => none
      | i :: is => if i = "1" then checking_run_dbt ps is else some false

/-- One compiled SQL file as seen by the rewriter batch: its split relative
path, the outcome of reading it (an I/O error or its text), and whether
writing it back raises. -/
structure SqlFile where
  parts : List String
  readResult : Except String (List Char)
  writeFails : Bool

/-- The body of the `try` block of `transform_compiled_sql`
(`run_dbt.py:502-542`) with the fallible I/O surfaced: reading may fail,
the rewrite may return early (`Except.ok none`), and the write-back may
fail. -/
def transformIOAttempt (f : SqlFile) : Except String (Option (List Char)) :=
  match f.readResult with
  | Except.error e => Except.error e
  | Except.ok sql =>
    match transform_compiled_sql f.parts sql with
    | none => Except.ok none
    | some out => if f.writeFails then Except.error "write failed" else Except.ok (some out)

/-- `transform_compiled_sql` as called by the batch: the surrounding
`except Exception: pass` (`run_dbt.py:544-545`) turns any per-file error into
a no-op (`none` = the file was not rewritten). -/
def transformIOCaught (f : SqlFile) : Option (List Char) :=
  match transformIOAttempt f with
  | Except.error _ => none
  | Except.ok r => r

/-- `process_compiled_sql_files` (`run_dbt.py:547-559`, `snowball.py:653-665`):
every discovered file is transformed in turn; there is no abort path. -/
def process_compiled_sql_files (files : List SqlFile) : List (Option (List Char)) :=
  files.map transformIOCaught

/-- `os.path.relpath p base` restricted to the case the code exercises:
`p` lies strictly under `base`. -/
def relpathFrom (base p : List Char) : List Char :=
  if (base ++ ['/']).isPrefixOf p then p.drop (base.length + 1) else p

/-- `zip_directory` (`run_dbt.py:333-347`, `snowball.py:446-460`): the walk of
`sourceDir` yields absolute file paths with contents; every file is written
with entry name `os.path.relpath(file_path, source_dir)` — no filter. -/
def zip_directory (sourceDir : List Char) (walkFiles : List (List Char × String)) :
    List (List Char × String) :=
  walkFiles.map (fun f => (relpathFrom sourceDir f.1, f.2))

/-- Stage outcome in which only the transform/assemble stage fails. -/
def failTransformOutcome : Stage → Bool := fun s =>
  match s with
  | Stage.transform => false
  | _ => true

/-- The compiled root of the end-to-end scenario of the spec: domain folders
`staging` with two model files and `marts` with one, the `staging` files
listed in non-sorted order to exercise the `sorted(files)` call. -/
def demoFolders : List (String × List (String × String)) :=
  [("staging", [("b.sql", "select 2 from t2"), ("a.sql", "select 1 from t1")]),
   ("marts", [("m.sql", "select 3 from t3")])]

/-! Helper lemmas about the FROM matcher. -/

theorem fromAt_lt_length {s : List Char} {q : Nat} (h : fromAt s q = true) :
    q < s.length := by
  by_contra hq
  have hle : s.length ≤ q := Nat.le_of_not_lt hq
  have hd : s.drop q = [] := List.drop_of_length_le hle
  unfold fromAt at h
  rw [hd] at h
  simp at h

theorem mem_fromPositions {s : List Char} {q : Nat} :
    q ∈ fromPositions s ↔ fromAt s q = true := by
  constructor
  · intro h
    exact (List.mem_filter.mp h).2
  · intro h
    exact List.mem_filter.mpr ⟨List.mem_range.mpr (fromAt_lt_length h), h⟩

theorem le_getLast_of_sorted_mem {l : List Nat} (hs : l.Sorted (· < ·)) {q p : Nat}
    (hq : q ∈ l) (hp : l.getLast? = some p) : q ≤ p := by
  induction l with
  | nil => cases hq
  | cons x xs ih =>
    cases xs with
    | nil =>
      simp at hq hp
      omega
    | cons y ys =>
      rw [List.getLast?_cons_cons] at hp
      rcases List.mem_cons.mp hq with h | h
      · subst h
        have hpmem : p ∈ y :: ys := List.mem_of_getLast?_eq_some hp
        exact Nat.le_of_lt ((List.sorted_cons.mp hs).1 p hpmem)
      · exact ih (List.sorted_cons.mp hs).2 h hp

theorem fromAt_le_getLast {s : List Char} {q p : Nat} (hq : fromAt s q = true)
    (hp : (fromPositions s).getLast? = some p) : q ≤ p := by
  have hsorted : (fromPositions s).Sorted (· < ·) :=
    (List.sorted_lt_range s.length).filter _
  exact le_getLast_of_sorted_mem hsorted (mem_fromPositions.mpr hq) hp

/-! Helper lemmas about `pyStrip`. -/

theorem dropWhile_eq_self_of_head {α : Type} (p : α → Bool) (l : List α)
    (h : ∀ c, l.head? = some c → p c = false) : l.dropWhile p = l := by
  cases l with
  | nil => rfl
  | cons a as =>
    rw [List.dropWhile_cons]
    simp [h a rfl]

theorem pyStrip_eq_self {l : List Char}
    (h1 : ∀ c, l.head? = some c → pyIsSpace c = false)
    (h2 : ∀ c, l.getLast? = some c → pyIsSpace c = false) :
    pyStrip l = l := by
  unfold pyStrip
  rw [dropWhile_eq_self_of_head _ _ h1]
  rw [dropWhile_eq_self_of_head _ _
    (fun c hc => h2 c (by rwa [List.head?_reverse] at hc))]
  exact List.reverse_reverse l

/-! Shape of the rewriter output. -/

theorem transform_eq (parts : List String) (d : String) (sql : List Char)
    (hd : domainOf parts = some d) :
    transform_compiled_sql parts sql =
      some (procHeader d (modelNameOf parts) ++
        pyStrip (injectInto d (modelNameOf parts) sql) ++ endFooter) := by
  unfold transform_compiled_sql
  rw [hd]

theorem head?_procHeader (d m : String) : (procHeader d m).head? = some 'C' := by
  have hC : "CREATE OR ALTER PROCEDURE ".data.head? = some 'C' := rfl
  simp [procHeader, hC]

theorem out_head_C (d m : String) (mid : List Char) :
    (procHeader d m ++ mid ++ endFooter).head? = some 'C' := by
  have h := head?_procHeader d m
  simp [h]

theorem out_last_semi (d m : String) (mid : List Char) :
    (procHeader d m ++ mid ++ endFooter).getLast? = some ';' := by
  have hS : endFooter.getLast? = some ';' := rfl
  simp [hS]

theorem injectInto_head_cases (d m : String) (l : List Char) :
    (injectInto d m l).head? = l.head? ∨ (injectInto d m l).head? = some 'I' := by
  unfold injectInto
  cases hp : (fromPositions l).getLast? with
  | none => exact Or.inl rfl
  | some p =>
    have hfrom : fromAt l p = true :=
      mem_fromPositions.mp (List.mem_of_getLast?_eq_some hp)
    have hplt : p < l.length := fromAt_lt_length hfrom
    cases p with
    | zero =>
      right
      have hI : "INTO ".data.head? = some 'I' := rfl
      simp [intoClause, hI]
    | succ n =>
      left
      cases l with
      | nil => simp at hplt
      | cons a as => simp

theorem getLast?_injectInto (d m : String) (l : List Char) :
    (injectInto d m l).getLast? = l.getLast? := by
  unfold injectInto
  cases hp : (fromPositions l).getLast? with
  | none => rfl
  | some p =>
    have hfrom : fromAt l p = true :=
      mem_fromPositions.mp (List.mem_of_getLast?_eq_some hp)
    have hplt : p < l.length := fromAt_lt_length hfrom
    have hdrop : l.drop p ≠ [] := by
      intro hnil
      have : l.length - p = 0 := by rw [← List.length_drop, hnil]; rfl
      omega
    cases hgl : (l.drop p).getLast? with
    | none =>
      exact absurd (List.getLast?_eq_none_iff.mp hgl) hdrop
    | some c =>
      have hl : l.getLast? = some c := by
        conv_lhs => rw [← List.take_append_drop p l]
        rw [List.getLast?_append, hgl]
        rfl
      rw [hl, List.getLast?_append, List.getLast?_append, hgl]
      rfl

/-! Helper lemmas about the two underscore-splitting conventions. -/

theorem takeWhile_append_stop {α : Type} {p : α → Bool} {u : List α} (v : α) (w : List α)
    (hu : ∀ a ∈ u, p a = true) (hv : p v = false) :
    (u ++ v :: w).takeWhile p = u := by
  induction u with
  | nil => simp [List.takeWhile_cons, hv]
  | cons x xs ih =>
    have hx : p x = true := hu x (by simp)
    simp only [List.cons_append, List.takeWhile_cons, hx, if_true]
    rw [ih (fun a ha => hu a (by simp [ha]))]

theorem takeWhile_append_of_stop_left {α : Type} {p : α → Bool} {u : List α} (w : List α)
    (hu : ∃ a ∈ u, p a = false) :
    (u ++ w).takeWhile p = u.takeWhile p := by
  induction u with
  | nil =>
    obtain ⟨a, ha, _⟩ := hu
    cases ha
  | cons x xs ih =>
    cases hx : p x with
    | false => simp [List.takeWhile_cons, hx]
    | true =>
      simp only [List.cons_append, List.takeWhile_cons, hx, if_true]
      rw [ih ?stop]
      case stop =>
        obtain ⟨a, ha, hpa⟩ := hu
        rcases List.mem_cons.mp ha with rfl | hmem
        · rw [hx] at hpa; cases hpa
        · exact ⟨a, hmem, hpa⟩

theorem afterFirstUnd_cons_self (xs : List Char) : afterFirstUnd ('_' :: xs) = xs := by
  unfold afterFirstUnd
  rw [if_pos (List.mem_cons_self _ _)]
  simp [List.dropWhile_cons]

theorem afterFirstUnd_cons_of_ne {x : Char} (hx : x ≠ '_') {xs : List Char}
    (hmem : '_' ∈ xs) : afterFirstUnd (x :: xs) = afterFirstUnd xs := by
  unfold afterFirstUnd
  rw [if_pos (List.mem_cons.mpr (Or.inr hmem)), if_pos hmem]
  rw [List.dropWhile_cons]
  simp [hx]

theorem lastSplitSeg_of_not_mem {c : Char} {l : List Char} (h : c ∉ l) :
    lastSplitSeg c l = l := by
  unfold lastSplitSeg
  rw [List.takeWhile_eq_self_iff.mpr ?all, List.reverse_reverse]
  case all =>
    intro a ha
    have : a ∈ l := List.mem_reverse.mp ha
    simp only [decide_eq_true_eq]
    exact fun heq => h (heq ▸ this)

theorem lastSplitSeg_cons_self {xs : List Char} (hnm : '_' ∉ xs) :
    lastSplitSeg '_' ('_' :: xs) = xs := by
  unfold lastSplitSeg
  rw [List.reverse_cons]
  rw [takeWhile_append_stop '_' [] ?left (by simp)]
  · exact List.reverse_reverse xs
  case left =>
    intro a ha
    have : a ∈ xs := List.mem_reverse.mp ha
    simp only [decide_eq_true_eq]
    exact fun heq => hnm (heq ▸ this)

theorem lastSplitSeg_cons_of_mem {x : Char} {xs : List Char} (hmem : '_' ∈ xs) :
    lastSplitSeg '_' (x :: xs) = lastSplitSeg '_' xs := by
  unfold lastSplitSeg
  rw [List.reverse_cons]
  rw [takeWhile_append_of_stop_left [x] ⟨'_', List.mem_reverse.mpr hmem, by simp⟩]

theorem afterFirst_eq_lastSeg_of_count_le_one {l : List Char}
    (h : l.count '_' ≤ 1) : afterFirstUnd l = lastSplitSeg '_' l := by
  induction l with
  | nil => rfl
  | cons x xs ih =>
    by_cases hx : x = '_'
    · subst hx
      have hcs : ('_' :: xs).count '_' = xs.count '_' + 1 := List.count_cons_self _ _
      have hnm : '_' ∉ xs := by
        rw [← List.count_eq_zero]
        omega
      rw [afterFirstUnd_cons_self, lastSplitSeg_cons_self hnm]
    · have hne : '_' ≠ x := Ne.symm hx
      have hcs : (x :: xs).count '_' = xs.count '_' := List.count_cons_of_ne hne _
      by_cases hmem : '_' ∈ xs
      · rw [afterFirstUnd_cons_of_ne hx hmem, lastSplitSeg_cons_of_mem hmem]
        exact ih (by omega)
      · have hnm : '_' ∉ x :: xs := by
          intro hin
          rcases List.mem_cons.mp hin with heq | hin2
          · exact hne heq
          · exact hmem hin2
        have h1 : afterFirstUnd (x :: xs) = x :: xs := by
          unfold afterFirstUnd
          rw [if_neg hnm]
        rw [h1, lastSplitSeg_of_not_mem hnm]

theorem underscore_mem_afterFirst_of_two {l : List Char} (h : 2 ≤ l.count '_') :
    '_' ∈ afterFirstUnd l := by
  induction l with
  | nil => simp at h
  | cons x xs ih =>
    by_cases hx : x = '_'
    · subst hx
      have hcs : ('_' :: xs).count '_' = xs.count '_' + 1 := List.count_cons_self _ _
      have hmem : '_' ∈ xs := List.count_pos_iff.mp (by omega)
      rw [afterFirstUnd_cons_self]
      exact hmem
    · have hne : '_' ≠ x := Ne.symm hx
      have hcs : (x :: xs).count '_' = xs.count '_' := List.count_cons_of_ne hne _
      have hmem : '_' ∈ xs := List.count_pos_iff.mp (by omega)
      rw [afterFirstUnd_cons_of_ne hx hmem]
      exact ih (by omega)

theorem not_mem_lastSplitSeg (c : Char) (l : List Char) : c ∉ lastSplitSeg c l := by
  intro hmem
  unfold lastSplitSeg at hmem
  rw [List.mem_reverse] at hmem
  have := List.mem_takeWhile_imp hmem
  simp at this

/-! Claim C1. -/

/-- C1, counterexample: the claim asserts that apart from the inserted
`INTO staging.a\n` (placed before the last FROM, at offset 9) and the
prepended header and appended footer, the query text is byte-identical.  For
the text `SELECT 1 FROM x\n` this fails: the code strips the body
(`sql_code.strip()`, run_dbt.py:538), so the trailing newline of the original
text is not preserved.  The second conjunct pins down the actual output: the
same insertion but with the trailing newline removed. -/
theorem C1_counterexample :
    transform_compiled_sql ["models", "staging", "a.sql"] ("SELECT 1 FROM x\n".data)
      ≠ some (procHeader "staging" "a" ++
          ("SELECT 1 ".data ++ intoClause "staging" "a" ++ "FROM x\n".data) ++ endFooter)
    ∧ transform_compiled_sql ["models", "staging", "a.sql"] ("SELECT 1 FROM x\n".data)
      = some (procHeader "staging" "a" ++
          ("SELECT 1 ".data ++ intoClause "staging" "a" ++ "FROM x".data) ++ endFooter) := by
  constructor
  · decide
  · decide

/-- C1, amended: for every compiled text with at least one case-insensitive
whole-word FROM occurrence, the rewriter emits header, then the text with the
single clause `INTO <domain>.<model>\n` inserted immediately before the start
offset of the last FROM match — earlier FROM occurrences untouched — trimmed
of leading and trailing whitespace, then the footer.  `p` is the last match:
a FROM match starts at `p` and every match offset is at most `p`. -/
theorem C1_thm (parts : List String) (d : String) (sql : List Char) (p : Nat)
    (hd : domainOf parts = some d)
    (hp : (fromPositions sql).getLast? = some p) :
    transform_compiled_sql parts sql =
      some (procHeader d (modelNameOf parts) ++
        pyStrip (sql.take p ++ intoClause d (modelNameOf parts) ++ sql.drop p) ++
        endFooter)
    ∧ fromAt sql p = true
    ∧ (∀ q, fromAt sql q = true → q ≤ p) := by
  refine ⟨?_, mem_fromPositions.mp (List.mem_of_getLast?_eq_some hp), ?_⟩
  · rw [transform_eq parts d sql hd]
    unfold injectInto
    rw [hp]
  · intro q hq
    exact fromAt_le_getLast hq hp

/-- C1, witness: the amended theorem evaluated on a concrete file. -/
theorem C1_witness :
    transform_compiled_sql ["models", "staging", "a.sql"] ("SELECT 1 FROM x\n".data)
      = some (procHeader "staging" (modelNameOf ["models", "staging", "a.sql"]) ++
        pyStrip (("SELECT 1 FROM x\n".data).take 9 ++
          intoClause "staging" (modelNameOf ["models", "staging", "a.sql"]) ++
          ("SELECT 1 FROM x\n".data).drop 9) ++
        endFooter) :=
  (C1_thm ["models", "staging", "a.sql"] "staging" ("SELECT 1 FROM x\n".data) 9
    (by decide) (by decide)).1

/-! Claim C2. -/

/-- C2, counterexample: re-applying `transform_compiled_sql` to its own
output is neither an error/rejection (`none`) nor a no-op (returning the
input unchanged): on `SELECT 1 FROM x` the second application returns a
third, different text — it silently re-wraps. -/
theorem C2_counterexample :
    ((transform_compiled_sql ["models", "staging", "a.sql"] ("SELECT 1 FROM x".data)).bind
        (transform_compiled_sql ["models", "staging", "a.sql"]) ≠ none)
    ∧ ((transform_compiled_sql ["models", "staging", "a.sql"] ("SELECT 1 FROM x".data)).bind
        (transform_compiled_sql ["models", "staging", "a.sql"])
      ≠ transform_compiled_sql ["models", "staging", "a.sql"] ("SELECT 1 FROM x".data)) := by
  constructor
  · decide
  · decide

/-- C2, amended: re-running the rewriter on a file it has already rewritten
silently re-wraps it: the second application succeeds and returns the first
output wrapped in a second header and footer (with a further INTO clause
inserted before the last FROM of the wrapped text when one matches), and the
result is strictly longer than its input — not a rejection and not a no-op. -/
theorem C2_thm (parts : List String) (d : String) (sql out : List Char)
    (hd : domainOf parts = some d)
    (hout : transform_compiled_sql parts sql = some out) :
    transform_compiled_sql parts out =
      some (procHeader d (modelNameOf parts) ++
        injectInto d (modelNameOf parts) out ++ endFooter)
    ∧ out.length <
      (procHeader d (modelNameOf parts) ++
        injectInto d (modelNameOf parts) out ++ endFooter).length := by
  have hshape : out = procHeader d (modelNameOf parts) ++
      pyStrip (injectInto d (modelNameOf parts) sql) ++ endFooter := by
    have h := transform_eq parts d sql hd
    rw [h] at hout
    exact (Option.some.inj hout).symm
  have hhead : out.head? = some 'C' := by
    rw [hshape]; exact out_head_C _ _ _
  have hlast : out.getLast? = some ';' := by
    rw [hshape]; exact out_last_semi _ _ _
  have hstrip : pyStrip (injectInto d (modelNameOf parts) out) =
      injectInto d (modelNameOf parts) out := by
    apply pyStrip_eq_self
    · intro c hc
      rcases injectInto_head_cases d (modelNameOf parts) out with hcase | hcase
      · rw [hcase, hhead] at hc
        simp at hc
        subst hc
        decide
      · rw [hcase] at hc
        simp at hc
        subst hc
        decide
    · intro c hc
      rw [getLast?_injectInto, hlast] at hc
      simp at hc
      subst hc
      decide
  have h2 := transform_eq parts d out hd
  rw [hstrip] at h2
  refine ⟨h2, ?_⟩
  have hinj : out.length ≤ (injectInto d (modelNameOf parts) out).length := by
    unfold injectInto
    cases hp : (fromPositions out).getLast? with
    | none => exact Nat.le_refl _
    | some p =>
      have hplt : p < out.length :=
        fromAt_lt_length (mem_fromPositions.mp (List.mem_of_getLast?_eq_some hp))
      have h1 : (out.take p).length = p := by
        rw [List.length_take]
        omega
      have h2 : (out.drop p).length = out.length - p := List.length_drop _ _
      simp [List.length_append, h1, h2]
      omega
  have hH : 0 < (procHeader d (modelNameOf parts)).length := by
    cases hh : procHeader d (modelNameOf parts) with
    | nil =>
      have := head?_procHeader d (modelNameOf parts)
      rw [hh] at this
      cases this
    | cons a as => simp
  have hF : 0 < endFooter.length := by decide
  simp only [List.length_append]
  omega

/-- C2, witness: the amended theorem evaluated on a concrete file; the
first rewrite's output is re-wrapped rather than rejected. -/
theorem C2_witness :
    transform_compiled_sql ["models", "staging", "a.sql"]
        ((transform_compiled_sql ["models", "staging", "a.sql"]
            ("SELECT 1 FROM x".data)).getD []) =
      some (procHeader "staging" (modelNameOf ["models", "staging", "a.sql"]) ++
        injectInto "staging" (modelNameOf ["models", "staging", "a.sql"])
          ((transform_compiled_sql ["models", "staging", "a.sql"]
              ("SELECT 1 FROM x".data)).getD []) ++ endFooter) :=
  (C2_thm ["models", "staging", "a.sql"] "staging" ("SELECT 1 FROM x".data)
    ((transform_compiled_sql ["models", "staging", "a.sql"]
        ("SELECT 1 FROM x".data)).getD [])
    (by decide) (by decide)).1

/-! Claim C6. -/

/-- C6, counterexample: for the relative path `models/10_/a.sql` the segment
after the `models` anchor is `10_`, whose first-underscore strip leaves the
empty remainder.  The claim says the file is skipped with its content
unchanged; in fact the rewriter still runs (result is not `none`) and the
on-disk content changes. -/
theorem C6_counterexample :
    transform_compiled_sql ["models", "10_", "a.sql"] ("SELECT 1".data) ≠ none
    ∧ transform_compiled_sql ["models", "10_", "a.sql"] ("SELECT 1".data)
      ≠ some ("SELECT 1".data) := by
  constructor
  · decide
  · decide

/-- C6, amended: when stripping the numbering prefix of the folder segment
yields the empty remainder, the file is not skipped: the rewriter proceeds
with the empty string as domain qualifier, producing a header of the form
`CREATE OR ALTER PROCEDURE .sp_<model>` and (when a FROM matches) an
`INTO .<model>` clause, and overwrites the file. -/
theorem C6_thm (parts : List String) (sql : List Char)
    (hd : domainOf parts = some "") :
    transform_compiled_sql parts sql =
      some (procHeader "" (modelNameOf parts) ++
        pyStrip (injectInto "" (modelNameOf parts) sql) ++ endFooter)
    ∧ transform_compiled_sql parts sql ≠ none := by
  have h := transform_eq parts "" sql hd
  exact ⟨h, by rw [h]; simp⟩

/-- C6, witness: the amended theorem evaluated on a concrete file whose
domain folder is `10_`. -/
theorem C6_witness :
    transform_compiled_sql ["models", "10_", "b.sql"] ("SELECT 2".data) =
      some (procHeader "" (modelNameOf ["models", "10_", "b.sql"]) ++
        pyStrip (injectInto "" (modelNameOf ["models", "10_", "b.sql"])
          ("SELECT 2".data)) ++ endFooter) :=
  (C6_thm ["models", "10_", "b.sql"] ("SELECT 2".data) (by decide)).1

/-! Claim C7. -/

/-- C7: for a compiled text with zero case-insensitive whole-word FROM
occurrences, the rewriter still prepends the procedure header and appends
the block terminator around the trimmed body, and performs no INTO
injection — the body between header and footer is exactly the trimmed
original text. -/
theorem C7_thm (parts : List String) (d : String) (sql : List Char)
    (hd : domainOf parts = some d)
    (hnone : fromPositions sql = []) :
    transform_compiled_sql parts sql =
      some (procHeader d (modelNameOf parts) ++ pyStrip sql ++ endFooter) := by
  rw [transform_eq parts d sql hd]
  unfold injectInto
  rw [hnone]
  rfl

/-- C7, witness: the theorem evaluated on a FROM-free file. -/
theorem C7_witness :
    transform_compiled_sql ["models", "10_staging", "c.sql"] ("SELECT 1".data) =
      some (procHeader "staging" (modelNameOf ["models", "10_staging", "c.sql"]) ++
        pyStrip ("SELECT 1".data) ++ endFooter) :=
  C7_thm ["models", "10_staging", "c.sql"] "staging" ("SELECT 1".data)
    (by decide) (by decide)

/-! Claim C3. -/

/-- C3, counterexample: with every stage succeeding except transform/assemble
(`generate_notebooks` returns `False`), the archive stage — which comes after
it in the fixed order — is still invoked: `main` discards the return value of
`generate_notebooks` and proceeds to `zip_directory` (run_dbt.py:763-767,
snowball.py:932-936).  So a failing stage `k = transform` does not halt the
pipeline. -/
theorem C3_counterexample :
    failTransformOutcome Stage.transform = false
    ∧ Stage.transform ∈ pipelineNotebooks failTransformOutcome
    ∧ Stage.archive ∈ pipelineNotebooks failTransformOutcome
    ∧ stageIdx Stage.transform < stageIdx Stage.archive := by
  decide

/-- C3, amended: fail-fast holds for the stages whose results `main`
actually checks — deps, pre-run setup, run and compile: if such a stage is
invoked and fails, no stage with a larger position in the fixed order is
invoked.  It does not hold for the transform/assemble stage: whenever the
first four stages succeed, the archive stage is invoked regardless of the
transform/assemble outcome (and of the best-effort lint outcome). -/
theorem C3_thm :
    (∀ r : Stage → Bool, ∀ k : Stage,
        k ∈ [Stage.deps, Stage.preSetup, Stage.run, Stage.compile] →
        r k = false → k ∈ pipelineNotebooks r →
        ∀ j ∈ pipelineNotebooks r, stageIdx j ≤ stageIdx k)
    ∧ (∀ r : Stage → Bool,
        r Stage.deps = true → r Stage.preSetup = true → r Stage.run = true →
        r Stage.compile = true → Stage.archive ∈ pipelineNotebooks r) := by
  constructor
  · decide
  · decide

/-- C3, witness: with deps succeeding and pre-run setup failing, every
invoked stage is at or before the pre-run setup position. -/
theorem C3_witness :
    stageIdx Stage.deps ≤ stageIdx Stage.preSetup :=
  C3_thm.1 (fun s => match s with | Stage.deps => true | _ => false)
    Stage.preSetup (by decide) (by decide) (by decide) Stage.deps (by decide)

/-! Claim C4. -/

/-- C4, counterexample: the `run_dbt.py` gate returns — letting the pipeline
proceed — after a single failed probe, when the operator enters anything
other than `"1"` at the prompt (`run_dbt.py:659-661` only recurses on input
`'1'`); the platform kind is never consulted in that gate at all.  So
progress past the gate is possible without a successful probe. -/
theorem C4_counterexample :
    checking_run_dbt [false] ["2"] = some false := by
  decide

/-- C4, amended: the `snowball.py` gate does satisfy the claim: it lets the
pipeline past only if the declared platform matches and some probe
succeeded, and it re-probes without an attempt bound (any number of failed
probes followed by a matching success passes).  The `run_dbt.py` gate checks
only probe success — it passes with a success report only if some probe
succeeded — and, per the counterexample, can also be bypassed. -/
theorem C4_thm :
    (∀ (m : Bool) (ps : List Bool),
        checking_snowball m ps = true → m = true ∧ true ∈ ps)
    ∧ (∀ n : Nat, checking_snowball true (List.replicate n false ++ [true]) = true)
    ∧ (∀ (ps : List Bool) (inputs : List String),
        checking_run_dbt ps inputs = some true → true ∈ ps) := by
  refine ⟨?_, ?_, ?_⟩
  · intro m ps
    induction ps with
    | nil => intro h; simp [checking_snowball] at h
    | cons p rest ih =>
      intro h
      unfold checking_snowball at h
      by_cases hc : (!p || !m) = true
      · rw [if_pos hc] at h
        obtain ⟨hm, hmem⟩ := ih h
        exact ⟨hm, List.mem_cons_of_mem _ hmem⟩
      · rw [if_neg hc] at h
        simp at hc
        exact ⟨hc.2, by simp [hc.1]⟩
  · intro n
    induction n with
    | zero => decide
    | succ k ih =>
      rw [List.replicate_succ, List.cons_append]
      unfold checking_snowball
      simpa using ih
  · intro ps inputs
    induction ps generalizing inputs with
    | nil => intro h; simp [checking_run_dbt] at h
    | cons p rest ih =>
      intro h
      unfold checking_run_dbt at h
      by_cases hp : p = true
      · subst hp
        exact List.mem_cons_self _ _
      · rw [if_neg hp] at h
        cases inputs with
        | nil => simp at h
        | cons i is =>
          dsimp only at h
          by_cases hi : i = "1"
          · rw [if_pos hi] at h
            exact List.mem_cons_of_mem _ (ih is h)
          · rw [if_neg hi] at h
            simp at h

/-- C4, witness: the amended theorem applied to concrete probe sequences:
passing the snowball gate with a matching platform and an immediately
successful probe, and passing it after two failed probes. -/
theorem C4_witness :
    (true = true ∧ true ∈ [true])
    ∧ checking_snowball true (List.replicate 2 false ++ [true]) = true :=
  ⟨C4_thm.1 true [true] (by decide), C4_thm.2.1 2⟩

/-! Claim C5. -/

/-- C5, counterexample: notebook assembly over the two demo folders does
produce exactly 2 documents, but the staging document contains 6 cells, not
the claimed 5: the code first appends a heading markdown cell
(run_dbt.py:430-434) before the schema-creation cell and the 2x2 per-model
cells. -/
theorem C5_counterexample :
    (generate_notebooks demoFolders).length = 2
    ∧ ((generate_notebooks demoFolders).getD 0 ("", [])).1 = "staging_nb.ipynb"
    ∧ ((generate_notebooks demoFolders).getD 0 ("", [])).2.length ≠ 5
    ∧ ((generate_notebooks demoFolders).getD 0 ("", [])).2.length = 6 := by
  refine ⟨?_, ?_, ?_, ?_⟩ <;> decide

/-- C5, amended: for the two demo domain folders, notebook assembly produces
exactly 2 documents, and `staging_nb` contains exactly 6 cells: 1 heading
markdown cell, 1 schema-creation cell, then per model in file-name order
(`a` before `b`, although the walk listed `b` first) a markdown title cell
and an executable cell. -/
theorem C5_thm :
    generate_notebooks demoFolders =
      [("staging_nb.ipynb",
        [Cell.markdown ("## SNOWBALL Spark SQL version\n" ++
           "#### **Notebook to create STAGING layer**\n" ++
           "##### **Creating STAGING schema to create required STAGING tables**\n"),
         Cell.code "%%sql\nCREATE SCHEMA IF NOT EXISTS staging;",
         Cell.markdown "##### **a**",
         Cell.code
           "%%sql\nDROP TABLE IF EXISTS staging.a;\nCREATE TABLE staging.a AS\nselect 1 from t1",
         Cell.markdown "##### **b**",
         Cell.code
           "%%sql\nDROP TABLE IF EXISTS staging.b;\nCREATE TABLE staging.b AS\nselect 2 from t2"]),
       ("marts_nb.ipynb",
        [Cell.markdown ("## SNOWBALL Spark SQL version\n" ++
           "#### **Notebook to create MARTS layer**\n" ++
           "##### **Creating MARTS schema to create required MARTS tables**\n"),
         Cell.code "%%sql\nCREATE SCHEMA IF NOT EXISTS marts;",
         Cell.markdown "##### **m**",
         Cell.code
           "%%sql\nDROP TABLE IF EXISTS marts.m;\nCREATE TABLE marts.m AS\nselect 3 from t3"])] := by
  decide

/-! Claim C8. -/

/-- C8: the rewriter batch is resilient: the batch result always has one
entry per discovered file; the entry for each file is computed independently
of every other file (so a failure in one file never aborts the remainder of
the batch); a file whose read raises is caught and left unwritten (`none`),
as is a file whose write-back raises — in both cases the error never
propagates out of `process_compiled_sql_files`, which is a total function. -/
theorem C8_thm :
    (∀ files : List SqlFile,
        (process_compiled_sql_files files).length = files.length)
    ∧ (∀ (pre : List SqlFile) (f : SqlFile) (post : List SqlFile),
        process_compiled_sql_files (pre ++ f :: post) =
          process_compiled_sql_files pre ++
            transformIOCaught f :: process_compiled_sql_files post)
    ∧ (∀ (f : SqlFile) (e : String),
        f.readResult = Except.error e → transformIOCaught f = none)
    ∧ (∀ (f : SqlFile) (sql out : List Char),
        f.readResult = Except.ok sql → f.writeFails = true →
        transform_compiled_sql f.parts sql = some out →
        transformIOCaught f = none) := by
  refine ⟨?_, ?_, ?_, ?_⟩
  · intro files
    simp [process_compiled_sql_files]
  · intro pre f post
    simp [process_compiled_sql_files]
  · intro f e h
    simp [transformIOCaught, transformIOAttempt, h]
  · intro f sql out h1 h2 h3
    simp [transformIOCaught, transformIOAttempt, h1, h2, h3]

/-- C8, witness: a file whose read raises yields `none` (skipped, logged)
rather than an error, at a concrete file record. -/
theorem C8_witness :
    transformIOCaught ⟨["models", "staging", "a.sql"], Except.error "io error", false⟩
      = none :=
  C8_thm.2.2.1 ⟨["models", "staging", "a.sql"], Except.error "io error", false⟩
    "io error" rfl

/-! Claim C9. -/

theorem relpathFrom_append (dir rel : List Char) :
    relpathFrom dir (dir ++ '/' :: rel) = rel := by
  unfold relpathFrom
  have hsplit : dir ++ '/' :: rel = (dir ++ ['/']) ++ rel := by simp
  have hpre : ((dir ++ ['/']).isPrefixOf (dir ++ '/' :: rel)) = true := by
    rw [ List.isPrefixOf_iff_prefix, hsplit]
    exact List.prefix_append _ _
  rw [if_pos hpre, hsplit]
  have hlen : dir.length + 1 = (dir ++ ['/']).length := by simp
  rw [hlen, List.drop_left]

/-- C9: archiving writes every file found under the source directory into
the archive with exactly its path relative to the source directory as entry
name: for any walk of files under `dir`, the entry list is exactly the
relative path list (no exclusion, no absolute prefixes); in particular a
directory holding `x/1.sql` and `y/2.sql` yields exactly those two entry
names. -/
theorem C9_thm :
    (∀ (dir : List Char) (rels : List (List Char × String)),
        zip_directory dir (rels.map (fun f => (dir ++ '/' :: f.1, f.2))) = rels)
    ∧ zip_directory "/tmp/src".data
        [("/tmp/src/x/1.sql".data, "c1"), ("/tmp/src/y/2.sql".data, "c2")]
      = [("x/1.sql".data, "c1"), ("y/2.sql".data, "c2")] := by
  constructor
  · intro dir rels
    unfold zip_directory
    rw [List.map_map]
    have hfun : ((fun f : List Char × String => (relpathFrom dir f.1, f.2)) ∘
        fun f : List Char × String => (dir ++ '/' :: f.1, f.2)) = id := by
      funext f
      simp [relpathFrom_append]
    rw [hfun, List.map_id]
  · decide

/-! Claim C10. -/

/-- C10: the procedure rewriter qualifies its header and INTO clause with
the suffix after the first underscore of the domain folder name
(`procDomain`, run_dbt.py:515), while the notebook assembler qualifies its
schema and tables with the suffix after the last underscore (`schemaName`,
run_dbt.py:435).  For folder names with at most one underscore the two
agree; for any folder name with two or more underscores they differ. -/
theorem C10_thm (folder : String) :
    (folder.data.count '_' ≤ 1 → procDomain folder = schemaName folder)
    ∧ (2 ≤ folder.data.count '_' → procDomain folder ≠ schemaName folder) := by
  constructor
  · intro h
    unfold procDomain schemaName
    exact congrArg String.mk (afterFirst_eq_lastSeg_of_count_le_one h)
  · intro h heq
    have hdata : afterFirstUnd folder.data = lastSplitSeg '_' folder.data := by
      have h2 := congrArg String.data heq
      simpa [procDomain, schemaName] using h2
    have h1 := underscore_mem_afterFirst_of_two h
    rw [hdata] at h1
    exact not_mem_lastSplitSeg '_' folder.data h1

/-- C10, witness: the two components agree on `10_staging` (one underscore)
and disagree on `10_int_models` (two underscores). -/
theorem C10_witness :
    procDomain "10_staging" = schemaName "10_staging"
    ∧ procDomain "10_int_models" ≠ schemaName "10_int_models" :=
  ⟨(C10_thm "10_staging").1 (by decide),
   (C10_thm "10_int_models").2 (by decide)⟩

end Snowball
